import Mathlib

/-!
Shallow embedding of `src/Kleerer.cpp` (llvm-slicer's Kleerer pass), together
with theorems settling the specification claims about it.

The embedding models the module state (functions, global variables), the
per-candidate harness synthesis `writeMain` (lines 232-330), its helpers
`check` (82-102), `getTypeSize` (104-115), `call_klee_make_symbolic`
(142-161), `makeAiStateSymbolic` (163-178), `checkAiState` (190-219),
`addGlobals` (221-230), and the driver `run` (332-363).

Modelling conventions:
* LLVM types are `Ty`; target-dependent layout queries (`TargetData`) are a
  structure of abstract size functions.  `getTypeSize` returns a C `unsigned`,
  so its result is reduced mod 2^32.
* The generated entry block is a `List Instr`; `push_back`/`push_front` on
  the instruction list are list append/cons.  LLVM-internal details that no
  claim depends on are folded into single abstract instructions: the
  malloc call + result cast of `CallInst::CreateMalloc` is one `malloc`
  instruction, and a `klee_make_symbolic` call (including the `i8*` bitcast
  of its address operand) is one `kleeMakeSymbolic` instruction.
* `getGlobalString` (126-140) creates unnamed private string constants in
  the module; they are not modelled as globals because every loop that
  matters skips unnamed globals (`makeAiStateSymbolic`, `checkAiState`) and
  `addGlobals` skips initialized globals.  The string contents appear as the
  `tag`/message fields of the abstract instructions.
* Object identity of functions created by `Function::Create` is modelled by
  the ghost field `createdFor`, recording which candidate's `writeMain`
  created the function (`none` for functions present in the loaded module).
* `assert` failure and the verifier's abort-on-failure action terminate the
  process; they are modelled as distinguished outcomes that stop everything.
* Fallible externals (file open, verifier verdict) are oracle fields of
  `WriteEnv`; the verifier's failure action (which the source never
  configures) is a `VerifierAction` parameter so theorems can cover both
  behaviours.
-/

set_option maxHeartbeats 1000000

namespace Kleerer

/-- LLVM types, as far as `Kleerer.cpp` inspects them: integer types, pointer
types with their pointee, struct types (sized or opaque, with their layout
size), function types, and a catch-all for any other type (sized or not,
disambiguated by an id so distinct types can have distinct alloc sizes). -/
inductive Ty where
  | intTy (bits : Nat)
  | ptrTy (elem : Ty)
  | structTy (sized : Bool) (layoutSize : Nat)
  | funcTy
  | otherTy (sized : Bool) (id : Nat)
  deriving DecidableEq, Repr

/-- `Type::isFunctionTy()`. -/
def Ty.isFuncTy : Ty → Bool
  | .funcTy => true
  | _ => false

/-- `Type::isSized()`: function types and opaque types are not sized. -/
def Ty.isSized : Ty → Bool
  | .funcTy => false
  | .intTy _ => true
  | .ptrTy _ => true
  | .structTy s _ => s
  | .otherTy s _ => s

/-- The `TargetData` analysis, as an abstract layout oracle:
`getPointerSize()` and `getTypeAllocSize(T)`. -/
structure TargetData where
  pointerSize : Nat
  typeAllocSize : Ty → Nat

/-- Lines 104-115, `getTypeSize`: pointer size for function types, a fixed
fallback of 100 for other unsized types, the struct layout size for struct
types, and the allocation size otherwise.  The C function returns `unsigned`,
hence the reduction mod 2^32. -/
def getTypeSize (TD : TargetData) (type : Ty) : Nat :=
  (if type.isFuncTy then TD.pointerSize
   else if !type.isSized then 100
   else
     match type with
     | .structTy _ n => n
     | t => TD.typeAllocSize t) % 2 ^ 32

/-- A formal parameter: optional name (`hasName`) and type. -/
structure Param where
  pname : Option String
  type : Ty
  deriving DecidableEq, Repr

/-- A function of the module: name, formal parameters, variadic flag, and the
ghost provenance tag `createdFor` modelling object identity of functions
created by `Function::Create` during `writeMain` (`none` for functions of the
loaded module). -/
structure Func where
  fname : String
  params : List Param
  isVarArg : Bool
  createdFor : Option String
  deriving DecidableEq, Repr

/-- Global-variable initializers, as far as this pass distinguishes them:
the `i32 0` constant installed by `makeAiStateSymbolic`, the null value
installed by `addGlobals`, or whatever initializer the loaded module had
(tagged so distinct originals stay distinct). -/
inductive Initzr where
  | i32Zero
  | nullOf (t : Ty)
  | orig (tag : Nat)
  deriving DecidableEq, Repr

/-- A global variable: optional name, value type, declaration flag, optional
initializer. -/
structure GlobalVar where
  gname : Option String
  ty : Ty
  isDecl : Bool
  init : Option Initzr
  deriving DecidableEq, Repr

/-- `GV.hasName() && GV.getName().startswith("__ai_state_")` (lines 169, 209).
The prefix test is spelled as a character-list prefix check (equivalent to
`String.startsWith`, but structurally recursive, so concrete instances
evaluate inside proofs). -/
def isAiState (g : GlobalVar) : Bool :=
  match g.gname with
  | none => false
  | some n => "__ai_state_".data.isPrefixOf n.data

/-- Name of a global (only used where `isAiState` guarantees a name). -/
def gName (g : GlobalVar) : String := g.gname.getD ""

/-- The module: identifier (used in artifact naming), functions, globals. -/
structure LModule where
  moduleId : String
  functions : List Func
  globals : List GlobalVar
  deriving DecidableEq, Repr

/-- A call-graph edge from a fixed caller: call site id and resolved callee
name (indirect calls are resolved through points-to sets by the external
call-graph service). -/
structure CallEdge where
  site : Nat
  callee : String
  deriving DecidableEq, Repr

/-- The external call graph: `calls(f)` (edges from `f`) and `callees(f)`
(sites calling `f`). -/
structure Callgraph where
  calls : String → List CallEdge
  callees : String → List Nat

/-- Values that `writeMain` passes as call arguments: a pointer into the
malloc'd buffer of a pointer parameter (`byteOffset` bytes past its start,
typed by the final bitcast), or the value loaded from the alloca of an
integer parameter. -/
inductive Val where
  | bufferOffset (paramIdx : Nat) (byteOffset : Nat) (ty : Ty)
  | scalarLoad (paramIdx : Nat) (ty : Ty)
  deriving DecidableEq, Repr

/-- The LLVM type of a generated argument value. -/
def Val.type : Val → Ty
  | .bufferOffset _ _ t => t
  | .scalarLoad _ t => t

/-- Address operands of generated `klee_make_symbolic` calls. -/
inductive SymTarget where
  | buffer (paramIdx : Nat)
  | scalar (paramIdx : Nat)
  | globalVar (g : String)
  deriving DecidableEq, Repr

/-- Instructions emitted into the synthesized harness, at the granularity the
claims need.  `malloc` records the element size and array size passed to
`CallInst::CreateMalloc`; `kleeMakeSymbolic` records the address target, the
byte-size argument and the name tag; `gepInBounds` is the
`GetElementPtrInst::CreateInBounds` with a single `i64` index applied to an
`i8*`-typed operand. -/
inductive Instr where
  | malloc (paramIdx : Nat) (typeSize : Nat) (arraySize : Nat)
  | kleeMakeSymbolic (target : SymTarget) (sizeBytes : Nat) (tag : String)
  | bitcastToVoidPtr (paramIdx : Nat)
  | gepInBounds (paramIdx : Nat) (idx : Nat)
  | bitcastToParamTy (paramIdx : Nat)
  | allocaScalar (paramIdx : Nat)
  | loadScalar (paramIdx : Nat)
  | storeZeroVolatile (g : String)
  | callCandidate (callee : String) (args : List Val)
  | loadGlobalVolatile (g : String)
  | addSum
  | icmpSumEqZero
  | condBr (ifZero ifNonzero : String)
  | callAssertFail (msg file : String) (line : Nat) (fn : String) (noreturn : Bool)
  | unreachable
  | retZero
  deriving DecidableEq, Repr

/-- `InstListType::push_back`. -/
def pushBack (bb : List Instr) (i : Instr) : List Instr := bb ++ [i]

/-- `InstListType::push_front`. -/
def pushFront (bb : List Instr) (i : Instr) : List Instr := i :: bb

/-- `param.hasName() ? param.getName() : "noname"` (lines 262-263). -/
def tagOf (p : Param) : String := p.pname.getD "noname"

/-- The argument value constructed for one parameter (lines 260-290), if any:
pointer parameters yield a pointer 2000 bytes into their buffer (the
`CreateInBounds` GEP with index 2000 is applied to an `i8*` operand, so the
offset is in bytes), integer parameters the loaded scalar; parameters of any
other type yield nothing. -/
def valOf (idx : Nat) (p : Param) : Option Val :=
  match p.type with
  | .ptrTy e => some (.bufferOffset idx 2000 (.ptrTy e))
  | .intTy b => some (.scalarLoad idx (.intTy b))
  | _ => none

/-- The argument list accumulated by the parameter loop of `writeMain`
(lines 248-291), starting at parameter index `idx`. -/
def argsFrom (idx : Nat) : List Param → List Val
  | [] => []
  | p :: rest =>
    match valOf idx p with
    | some v => v :: argsFrom (idx + 1) rest
    | none => argsFrom (idx + 1) rest

/-- One iteration of the parameter loop of `writeMain` (lines 248-291):
the instructions appended (or, for the alloca, prepended) to the entry block
and the argument value produced.
* Pointer parameter `P` of pointee `e` (lines 264-281): malloc of 4000
  elements of size `getTypeSize TD e`; `klee_make_symbolic` over
  `4000 * getTypeSize TD e` bytes (an `i32` multiply, hence mod 2^32) tagged
  with `P`'s name; if the malloc result is not already `i8*` it is bitcast to
  `i8*`; a `CreateInBounds` GEP with index 2000 on that `i8*` value (byte
  offset 2000); a bitcast back to `P`'s type when the first cast happened.
* Integer parameter (lines 282-287): an alloca pushed to the *front* of the
  block, `klee_make_symbolic` over the scalar, and a load of it.
* Any other parameter type: nothing (lines 289-290: `val` stays null). -/
def emitParam (TD : TargetData) (idx : Nat) (p : Param) (bb : List Instr) :
    List Instr × Option Val :=
  match p.type with
  | .ptrTy e =>
    let s := getTypeSize TD e
    let bb1 := pushBack bb (.malloc idx s 4000)
    let bb2 := pushBack bb1 (.kleeMakeSymbolic (.buffer idx) (4000 * s % 2 ^ 32) (tagOf p))
    if e = Ty.intTy 8 then
      -- malloc result already has type i8* = void*: no casts around the GEP
      (pushBack bb2 (.gepInBounds idx 2000), some (.bufferOffset idx 2000 (.ptrTy e)))
    else
      let bb3 := pushBack bb2 (.bitcastToVoidPtr idx)
      let bb4 := pushBack bb3 (.gepInBounds idx 2000)
      let bb5 := pushBack bb4 (.bitcastToParamTy idx)
      (bb5, some (.bufferOffset idx 2000 (.ptrTy e)))
  | .intTy b =>
    let bb1 := pushFront bb (.allocaScalar idx)
    let bb2 := pushBack bb1 (.kleeMakeSymbolic (.scalar idx) (getTypeSize TD (.intTy b)) (tagOf p))
    let bb3 := pushBack bb2 (.loadScalar idx)
    (bb3, some (.scalarLoad idx (.intTy b)))
  | _ => (bb, none)

/-- The whole parameter loop of `writeMain` (lines 248-291): block contents
and argument list. -/
def emitParams (TD : TargetData) (idx : Nat) : List Param → List Instr → List Instr × List Val
  | [], bb => (bb, [])
  | p :: rest, bb =>
    let r := emitParam TD idx p bb
    let rr := emitParams TD (idx + 1) rest r.1
    (rr.1, (r.2.map (· :: rr.2)).getD rr.2)

/-- Lines 82-102, `check`: the two assertions guarding a constructed call.
The arity assertion requires the argument count to equal the parameter count
(or exceed it for a variadic callee); the type assertion requires each
argument within the formal-parameter range to have exactly the formal's type.
An `assert` failure aborts the process, modelled as `check` returning
`false`. -/
def check (paramTys : List Ty) (isVarArg : Bool) (args : List Val) : Bool :=
  (decide (args.length = paramTys.length) ||
    (isVarArg && decide (args.length > paramTys.length))) &&
  (List.range args.length).all fun i =>
    decide (paramTys.length ≤ i) ||
      decide (paramTys.getD i Ty.funcTy = (args.getD i (.scalarLoad 0 Ty.funcTy)).type)

/-- Initializer mutation of `makeAiStateSymbolic` (line 171) on one global:
a named `__ai_state_` global gets initializer `i32 0`. -/
def zeroAi1 (g : GlobalVar) : GlobalVar :=
  if isAiState g then { g with init := some Initzr.i32Zero } else g

/-- The globals list after the initializer mutations of
`makeAiStateSymbolic`. -/
def zeroAi : List GlobalVar → List GlobalVar := List.map zeroAi1

/-- The instructions `makeAiStateSymbolic` appends (lines 172-176): for each
`__ai_state_` global, a `klee_make_symbolic` over `getTypeSize TD i32` bytes
tagged with the global's name, then a volatile store of `i32 0` into it. -/
def aiInstrs (TD : TargetData) : List GlobalVar → List Instr
  | [] => []
  | g :: rest =>
    (if isAiState g then
      [.kleeMakeSymbolic (.globalVar (gName g)) (getTypeSize TD (.intTy 32)) (gName g),
       .storeZeroVolatile (gName g)]
     else []) ++ aiInstrs TD rest

/-- Lines 163-178, `Kleerer::makeAiStateSymbolic`: walk the module's globals;
for each named global whose name starts with `__ai_state_`, set its
initializer to `i32 0`, append a `klee_make_symbolic` call over it (tagged
with its name), and append a volatile store of the concrete `i32 0` into it. -/
def makeAiStateSymbolic (TD : TargetData) : List GlobalVar → List Instr →
    List GlobalVar × List Instr
  | [], bb => ([], bb)
  | g :: rest, bb =>
    if isAiState g then
      let g' := { g with init := some Initzr.i32Zero }
      let bb1 := pushBack bb
        (.kleeMakeSymbolic (.globalVar (gName g)) (getTypeSize TD (.intTy 32)) (gName g))
      let bb2 := pushBack bb1 (.storeZeroVolatile (gName g))
      let r := makeAiStateSymbolic TD rest bb2
      (g' :: r.1, r.2)
    else
      let r := makeAiStateSymbolic TD rest bb
      (g :: r.1, r.2)

/-- Lines 221-230, `Kleerer::addGlobals`, on one global: an external global
declaration without an initializer gets the null value of its value type. -/
def addGlobal1 (g : GlobalVar) : GlobalVar :=
  if g.isDecl && g.init.isNone then { g with init := some (Initzr.nullOf g.ty) } else g

/-- Lines 221-230, `Kleerer::addGlobals`, over the whole globals list. -/
def addGlobals : List GlobalVar → List GlobalVar := List.map addGlobal1

/-- The load/add sequence of `checkAiState` (lines 206-213): for each
`__ai_state_` global, a volatile load followed by an add into the running
sum. -/
def sumInstrs : List GlobalVar → List Instr
  | [] => []
  | g :: rest =>
    (if isAiState g then [.loadGlobalVolatile (gName g), .addSum] else []) ++ sumInstrs rest

/-- Lines 190-219, `Kleerer::checkAiState`: build the `assertBB` block
(`__assert_fail("leaving function with lock held", "n/a", 0, "main")`,
declared no-return via `get_assert_fail` lines 180-188, then `unreachable`),
append to the entry block the volatile loads and adds summing every
`__ai_state_` global, the `icmp eq sum, 0`, and the conditional branch that
goes to `final` when the sum is zero and to `assertBB` otherwise.  Returns
the extended entry block and the `assertBB` contents (`final` receives its
`ret 0` from `writeMain`, lines 305-306).  The debug location copied onto the
`__assert_fail` call is not modelled. -/
def checkAiState (gs : List GlobalVar) (bb : List Instr) : List Instr × List Instr :=
  let assertBB : List Instr :=
    [.callAssertFail "leaving function with lock held" "n/a" 0 "main" true, .unreachable]
  let bb1 := bb ++ sumInstrs gs
  (pushBack (pushBack bb1 .icmpSumEqZero) (.condBr "final" "assertBB"), assertBB)

/-- The three basic blocks of the synthesized `main`. -/
structure MainFunction where
  entry : List Instr
  finalBB : List Instr
  assertBB : List Instr
  deriving DecidableEq, Repr

/-- One emitted artifact: its file name and the serialized module contents at
write time (functions including the scaffolding, globals, and the harness
body). -/
structure Artifact where
  name : String
  functions : List Func
  globals : List GlobalVar
  main : MainFunction
  deriving DecidableEq, Repr

/-- Outcome of one `writeMain` invocation.  `signatureAbort` is the `assert`
in `check` firing (process aborts; carries the entry block built so far),
`ioError` is the early return at lines 314-317, `processAborted` is the
verifier pass rejecting the module under its abort-on-failure action, and
`written` is the successful serialization. -/
inductive WriteOutcome where
  | signatureAbort (entrySoFar : List Instr)
  | ioError
  | processAborted
  | written (art : Artifact)
  deriving DecidableEq, Repr

/-- The artifact of a `written` outcome. -/
def WriteOutcome.artOf : WriteOutcome → Option Artifact
  | .written a => some a
  | _ => none

/-- Whether the outcome emitted an artifact. -/
def WriteOutcome.isWritten : WriteOutcome → Bool
  | .written _ => true
  | _ => false

/-- Failure action of the verifier pass.  The source never configures one
(line 322 uses `createVerifierPass()`); LLVM's default aborts the process.
`printMessage` models a verifier that reports and returns, which the source
code would then ignore. -/
inductive VerifierAction where
  | abortProcess
  | printMessage
  deriving DecidableEq, Repr

/-- External oracles consumed by `writeMain`: whether opening a given output
path succeeds, the verifier's verdict on a module, and the verifier's
failure action. -/
structure WriteEnv where
  openOk : String → Bool
  verifierValid : LModule → Bool
  verifierAction : VerifierAction

/-- Whether control returns from the verifier pass (lines 321-323): an
invalid module under the abort-on-failure action kills the process; in every
other case the pass returns and `writeMain` continues — the source never
consults the verdict. -/
def verifierGate (va : VerifierAction) (valid : Bool) : Bool :=
  match va, valid with
  | .abortProcess, false => false
  | _, _ => true

/-- Line 233: `M.getModuleIdentifier() + ".main." + F.getNameStr() + ".o"`. -/
def artifactName (M : LModule) (F : Func) : String :=
  M.moduleId ++ ".main." ++ F.fname ++ ".o"

/-- The `main` function created at lines 234-235 for candidate `cand`
(parameterless, non-variadic). -/
def mainScaffold (cand : String) : Func :=
  ⟨"main", [], false, some cand⟩

/-- The `klee_make_symbolic` declaration created at lines 239-241 for
candidate `cand`, of type `void(void*, unsigned, const char*)`. -/
def kmsScaffold (cand : String) : Func :=
  ⟨"klee_make_symbolic",
   [⟨none, .ptrTy (.intTy 8)⟩, ⟨none, .intTy 32⟩, ⟨none, .ptrTy (.intTy 8)⟩],
   false, some cand⟩

/-- The module state submitted to the verifier and serialized on success:
the original module plus the two scaffolding functions, with the global
mutations of `makeAiStateSymbolic` and `addGlobals` applied. -/
def moduleAtVerify (M : LModule) (F : Func) : LModule :=
  ⟨M.moduleId, M.functions ++ [mainScaffold F.fname, kmsScaffold F.fname],
   addGlobals (zeroAi M.globals)⟩

/-- Derived form: the module `writeMain` leaves behind on its success path —
the scaffolding created at lines 234-241 is erased again at lines 327-328,
while the global mutations of lines 294-295 persist. -/
def moduleAfterWrite (M : LModule) : LModule :=
  ⟨M.moduleId, M.functions, addGlobals (zeroAi M.globals)⟩

/-- Derived form: the artifact `writeMain` serializes on its success path
(the module at line 325, including the scaffolding functions, plus the
synthesized `main` body). -/
def successArtifact (TD : TargetData) (M : LModule) (F : Func) : Artifact :=
  ⟨artifactName M F,
   M.functions ++ [mainScaffold F.fname, kmsScaffold F.fname],
   addGlobals (zeroAi M.globals),
   ⟨(emitParams TD 0 F.params []).1 ++ aiInstrs TD M.globals ++
      Instr.callCandidate F.fname (argsFrom 0 F.params) ::
        (sumInstrs (addGlobals (zeroAi M.globals)) ++
         [Instr.icmpSumEqZero, Instr.condBr "final" "assertBB"]),
    [Instr.retZero],
    [Instr.callAssertFail "leaving function with lock held" "n/a" 0 "main" true,
     Instr.unreachable]⟩⟩

/-- Lines 232-330, `Kleerer::writeMain` for candidate `F`:
1. compute the artifact name (line 233);
2. create `main` and `klee_make_symbolic`, appended to the module
   (lines 234-241);
3. run the parameter loop building the entry block and argument list
   (lines 248-291);
4. `makeAiStateSymbolic` (line 294) and `addGlobals` (line 295);
5. `check(&F, params)` (line 301): on mismatch the `assert` aborts the
   process before any call instruction is created;
6. emit the call to `F` (line 303), `checkAiState` (line 304), and the
   `ret 0` in the `final` block (lines 305-306);
7. open the output file (lines 312-317): on failure report and return
   (nothing verified, written, or erased);
8. run the verifier pass (lines 321-323); the source ignores its verdict,
   so an invalid module either aborts the whole process (abort action) or
   is carried on to serialization (report action);
9. serialize the module (line 325) and erase the two functions created in
   step 2 (`eraseFromParent`, lines 327-328).  (`done = true` at line 329 is
   commented out, so `writeMain` never sets the completion flag.)
No function other than the two of step 2 is created in between (the
`__assert_fail` looked up by `get_assert_fail` via `getOrInsertFunction`
already exists whenever `run` invokes `writeMain`), so the two functions
erased in step 9 are exactly the last two of the list. -/
def writeMain (TD : TargetData) (env : WriteEnv) (M : LModule) (F : Func) :
    LModule × WriteOutcome :=
  let name := artifactName M F
  let fs1 := M.functions ++ [mainScaffold F.fname, kmsScaffold F.fname]
  let r := emitParams TD 0 F.params []
  let g := makeAiStateSymbolic TD M.globals r.1
  let gs2 := addGlobals g.1
  let M2 : LModule := ⟨M.moduleId, fs1, gs2⟩
  if check (F.params.map Param.type) F.isVarArg r.2 then
    let bb2 := pushBack g.2 (.callCandidate F.fname r.2)
    let c := checkAiState gs2 bb2
    let mainFn : MainFunction := ⟨c.1, [.retZero], c.2⟩
    if env.openOk name then
      if verifierGate env.verifierAction (env.verifierValid M2) then
        let art : Artifact := ⟨name, fs1, gs2, mainFn⟩
        (⟨M.moduleId, fs1.dropLast.dropLast, gs2⟩, .written art)
      else (M2, .processAborted)
    else (M2, .ioError)
  else (M2, .signatureAbort g.2)

/-- The inner loop of `run` (lines 350-358): candidate `F` qualifies exactly
when some (site, resolved callee) pair of `calls(F)` has the
`__assert_fail` function as its callee — a direct edge; the `break` ensures
`writeMain` is invoked at most once per candidate. -/
def qualifies (CG : Callgraph) (F : Func) : Bool :=
  (CG.calls F.fname).any fun e => e.callee == "__assert_fail"

/-- Result of `run`: either the process aborted mid-run (a fatal `assert` or
the verifier's abort action), or the loop finished, with the final module,
the artifacts written, and the pass's boolean return value. -/
inductive RunResult where
  | aborted (M : LModule) (arts : List Artifact)
  | finished (M : LModule) (arts : List Artifact) (ret : Bool)
  deriving DecidableEq, Repr

/-- The artifacts written during a run. -/
def RunResult.artifacts : RunResult → List Artifact
  | .aborted _ a => a
  | .finished _ a _ => a

/-- The candidate loop of `run` (lines 344-361).  `done` is the completion
flag: it is initialized `false` (line 41) and checked after every candidate
(lines 359-360), but never set — the assignment `done = true` at line 329 is
commented out — so `writeMain` leaves it unchanged. -/
def runLoop (TD : TargetData) (env : WriteEnv) (CG : Callgraph) :
    List Func → Bool → LModule → List Artifact → RunResult
  | [], _, M, arts => .finished M arts false
  | F :: rest, done, M, arts =>
    if qualifies CG F then
      match writeMain TD env M F with
      | (M', .signatureAbort _) => .aborted M' arts
      | (M', .processAborted) => .aborted M' arts
      | (M', .ioError) =>
        if done then .finished M' arts false
        else runLoop TD env CG rest done M' arts
      | (M', .written art) =>
        if done then .finished M' (arts ++ [art]) false
        else runLoop TD env CG rest done M' (arts ++ [art])
    else
      if done then .finished M arts false
      else runLoop TD env CG rest done M arts

/-- Lines 332-363, `Kleerer::run`: locate `__assert_fail` by name (absent:
return with no output); if nothing calls it, return with no output;
otherwise iterate the candidate list (the `initFuns` global produced by the
external `-prepare` stage, resolved to functions; its absence is a fatal
configuration `assert` not modelled here), invoking `writeMain` on every
candidate with a direct call edge to `__assert_fail`.  Returns `false` in
every terminating case. -/
def run (TD : TargetData) (env : WriteEnv) (CG : Callgraph) (initFuns : List Func)
    (M : LModule) : RunResult :=
  match M.functions.find? (fun f => f.fname == "__assert_fail") with
  | none => .finished M [] false
  | some _ =>
    if (CG.callees "__assert_fail").length = 0 then .finished M [] false
    else runLoop TD env CG initFuns false M []

/-! ### Semantics used to state the claims -/

/-- Value of a global as seen by the downstream engine: marked symbolic
(unconstrained input, with its tag) or a concrete integer. -/
inductive GVal where
  | symbolic (tag : String)
  | conc (n : Nat)
  deriving DecidableEq, Repr

/-- Pointwise update of a global-value map. -/
def upd (vals : String → GVal) (g : String) (v : GVal) : String → GVal :=
  fun x => if x = g then v else vals x

/-- Execute the entry block up to (excluding) the first call to the
candidate, tracking global values: `klee_make_symbolic` over a global marks
it symbolic, a volatile store of zero makes it concretely zero; no other
emitted instruction writes a global. -/
def globalsBeforeCall (vals : String → GVal) : List Instr → (String → GVal)
  | [] => vals
  | .callCandidate _ _ :: _ => vals
  | .kleeMakeSymbolic (.globalVar g) _ tag :: rest =>
    globalsBeforeCall (upd vals g (.symbolic tag)) rest
  | .storeZeroVolatile g :: rest => globalsBeforeCall (upd vals g (.conc 0)) rest
  | _ :: rest => globalsBeforeCall vals rest

/-- The instructions following the first call to the candidate. -/
def postCallSuffix : List Instr → Option (List Instr)
  | [] => none
  | .callCandidate _ _ :: rest => some rest
  | _ :: rest => postCallSuffix rest

/-- The argument list of the first call to the candidate. -/
def callArgs : List Instr → Option (List Val)
  | [] => none
  | .callCandidate _ a :: _ => some a
  | _ :: rest => callArgs rest

/-- Evaluate the post-call invariant check: volatile loads feed `addSum`
(an `i32` add, hence mod 2^32), `icmpSumEqZero` compares the sum with zero,
and the conditional branch selects the successor block name. -/
def evalCheck (vals : String → Nat) : List Instr → Nat → Nat → Bool → Option String
  | [], _, _, _ => none
  | .loadGlobalVolatile g :: rest, _, s, f => evalCheck vals rest (vals g) s f
  | .addSum :: rest, l, s, f => evalCheck vals rest l ((l + s) % 2 ^ 32) f
  | .icmpSumEqZero :: rest, l, s, _ => evalCheck vals rest l s (decide (s = 0))
  | .condBr t e :: _, _, _, f => some (if f then t else e)
  | _ :: rest, l, s, f => evalCheck vals rest l s f

/-- The `i32` sum of the current values of all `__ai_state_` globals,
accumulated in the order `checkAiState` loads them. -/
def sumAiState (vals : String → Nat) : List GlobalVar → Nat → Nat
  | [], s => s
  | g :: rest, s =>
    sumAiState vals rest (if isAiState g then (vals (gName g) + s) % 2 ^ 32 else s)

/-- Byte offset of element `k` in a buffer whose elements are `elemSize`
bytes each. -/
def elementByteOffset (elemSize k : Nat) : Nat := k * elemSize

/-- Whether a parameter type is handled by the loop of lines 260-290
(pointer or integer); any other parameter produces no argument. -/
def isPtrOrInt : Ty → Bool
  | .ptrTy _ => true
  | .intTy _ => true
  | _ => false

/-- Instructions that write a global value or end the pre-call prefix:
`klee_make_symbolic` over a global, the volatile zero store, and the call to
the candidate. -/
def Instr.touchesGlobals : Instr → Bool
  | .kleeMakeSymbolic (.globalVar _) _ _ => true
  | .storeZeroVolatile _ => true
  | .callCandidate _ _ => true
  | _ => false

/-- Whether an instruction is the call to the candidate. -/
def Instr.isCallCand : Instr → Bool
  | .callCandidate _ _ => true
  | _ => false

/-- Names of the `__ai_state_` globals, in module order. -/
def aiNames (gs : List GlobalVar) : List String :=
  gs.filterMap fun g => if isAiState g then some (gName g) else none

/-! ### Concrete instances used by counterexamples and witnesses -/

/-- A target layout: 8-byte pointers, every sized type allocated in 4 bytes. -/
def tdC : TargetData := ⟨8, fun _ => 4⟩

/-- Environment where every open succeeds and the verifier accepts. -/
def envOK : WriteEnv := ⟨fun _ => true, fun _ => true, .abortProcess⟩

/-- Environment where the verifier rejects, with the abort-on-failure action. -/
def envRejectAbort : WriteEnv := ⟨fun _ => true, fun _ => false, .abortProcess⟩

/-- Environment where the verifier rejects but merely reports and returns. -/
def envRejectPrint : WriteEnv := ⟨fun _ => true, fun _ => false, .printMessage⟩

/-- Environment where opening `m.main.A.o` fails and everything else is ok. -/
def envNoOpenA : WriteEnv := ⟨fun s => !(s == "m.main.A.o"), fun _ => true, .abortProcess⟩

/-- The `__assert_fail` declaration present in the loaded module. -/
def afDecl : Func := ⟨"__assert_fail", [], false, none⟩

def fA : Func := ⟨"A", [], false, none⟩

def fB : Func := ⟨"B", [], false, none⟩

/-- Candidate with one pointer parameter whose pointee is a 4-byte type. -/
def fP : Func := ⟨"P", [⟨some "p", .ptrTy (.otherTy true 0)⟩], false, none⟩

/-- Candidate with one struct-typed parameter (neither pointer nor integer). -/
def fS : Func := ⟨"S", [⟨some "s", .structTy true 12⟩], false, none⟩

/-- A state variable with a nonzero original initializer. -/
def gX : GlobalVar := ⟨some "__ai_state_x", .intTy 32, false, some (.orig 7)⟩

/-- The same state variable as `gX` after `makeAiStateSymbolic` zeroed it. -/
def gXz : GlobalVar := ⟨some "__ai_state_x", .intTy 32, false, some .i32Zero⟩

def mAB : LModule := ⟨"m", [afDecl, fA, fB], [gX]⟩

def mP : LModule := ⟨"m", [afDecl, fP], []⟩

def mS : LModule := ⟨"m", [afDecl, fS], []⟩

/-- A module without the `__assert_fail` function. -/
def mNoAF : LModule := ⟨"m", [fA], [gX]⟩

/-- Call graph with direct edges from `A`, `B`, `P`, `S` to `__assert_fail`. -/
def cgAB : Callgraph :=
  ⟨fun n => if n = "A" ∨ n = "B" ∨ n = "P" ∨ n = "S" then [⟨0, "__assert_fail"⟩] else [],
   fun _ => [0, 1]⟩

/-- Call graph reporting zero call sites for `__assert_fail`. -/
def cgNone : Callgraph := ⟨fun _ => [], fun _ => []⟩

def emptyMain : MainFunction := ⟨[], [], []⟩

def emptyArt : Artifact := ⟨"", [], [], emptyMain⟩

/-- Result of synthesizing `A`'s harness over `mAB`. -/
def resA : LModule × WriteOutcome := writeMain tdC envOK mAB fA

def mA1 : LModule := resA.1

def artA : Artifact := resA.2.artOf.getD emptyArt

/-- Result of synthesizing `B`'s harness right after `A`'s. -/
def resB9 : LModule × WriteOutcome := writeMain tdC envOK mA1 fB

def mB9 : LModule := resB9.1

def artB9 : Artifact := resB9.2.artOf.getD emptyArt

/-- Result of synthesizing `P`'s harness over `mP`. -/
def resP : LModule × WriteOutcome := writeMain tdC envOK mP fP

def artP : Artifact := resP.2.artOf.getD emptyArt

/-- Result of synthesizing `A`'s harness when its output file cannot open. -/
def resAio : LModule × WriteOutcome := writeMain tdC envNoOpenA mAB fA

def mAio : LModule := resAio.1

/-- Result of synthesizing `B`'s harness after `A`'s failed open. -/
def resBafter : LModule × WriteOutcome := writeMain tdC envNoOpenA mAio fB

def mBafter : LModule := resBafter.1

def artBafter : Artifact := resBafter.2.artOf.getD emptyArt

/-! ### Helper lemmas about the emission functions -/

theorem dropLast_pair (l : List Func) (a b : Func) :
    ((l ++ [a, b]).dropLast).dropLast = l := by
  have h : l ++ [a, b] = (l ++ [a]) ++ [b] := by simp
  rw [h]
  simp

theorem emitParams_snd (TD : TargetData) (ps : List Param) :
    ∀ (idx : Nat) (bb : List Instr), (emitParams TD idx ps bb).2 = argsFrom idx ps := by
  induction ps with
  | nil => intro idx bb; rfl
  | cons p rest ih =>
    intro idx bb
    cases hpt : p.type with
    | ptrTy e =>
      by_cases he : e = Ty.intTy 8 <;>
        simp [emitParams, emitParam, argsFrom, valOf, hpt, he, ih]
    | intTy b => simp [emitParams, emitParam, argsFrom, valOf, hpt, ih]
    | structTy s n => simp [emitParams, emitParam, argsFrom, valOf, hpt, ih]
    | funcTy => simp [emitParams, emitParam, argsFrom, valOf, hpt, ih]
    | otherTy s i => simp [emitParams, emitParam, argsFrom, valOf, hpt, ih]

theorem emitParam_fst_neutral (TD : TargetData) (idx : Nat) (p : Param) (bb : List Instr)
    (hbb : ∀ x ∈ bb, Instr.touchesGlobals x = false) :
    ∀ x ∈ (emitParam TD idx p bb).1, Instr.touchesGlobals x = false := by
  obtain ⟨pn, pt⟩ := p
  cases pt with
  | ptrTy e =>
    by_cases he : e = Ty.intTy 8 <;>
      · simp only [emitParam, he, if_true, if_false, pushBack, pushFront]
        simp [List.forall_mem_append, or_imp, forall_and, forall_eq,
          Instr.touchesGlobals]
        exact hbb
  | intTy b =>
    simp only [emitParam, pushBack, pushFront]
    simp [List.forall_mem_append, or_imp, forall_and, forall_eq,
      Instr.touchesGlobals]
    exact hbb
  | structTy s n => simpa [emitParam] using hbb
  | funcTy => simpa [emitParam] using hbb
  | otherTy s i => simpa [emitParam] using hbb

theorem emitParams_fst_neutral (TD : TargetData) (ps : List Param) :
    ∀ (idx : Nat) (bb : List Instr),
      (∀ x ∈ bb, Instr.touchesGlobals x = false) →
      ∀ x ∈ (emitParams TD idx ps bb).1, Instr.touchesGlobals x = false := by
  induction ps with
  | nil => intro idx bb hbb; exact hbb
  | cons p rest ih =>
    intro idx bb hbb
    exact ih (idx + 1) (emitParam TD idx p bb).1 (emitParam_fst_neutral TD idx p bb hbb)

theorem not_call_of_not_touches (x : Instr) (h : Instr.touchesGlobals x = false) :
    Instr.isCallCand x = false := by
  cases x <;> simp_all [Instr.touchesGlobals, Instr.isCallCand]

theorem makeAiStateSymbolic_eq (TD : TargetData) (gs : List GlobalVar) :
    ∀ bb : List Instr, makeAiStateSymbolic TD gs bb = (zeroAi gs, bb ++ aiInstrs TD gs) := by
  induction gs with
  | nil => intro bb; simp [makeAiStateSymbolic, zeroAi, aiInstrs]
  | cons g rest ih =>
    intro bb
    by_cases hg : isAiState g <;>
      simp [makeAiStateSymbolic, zeroAi, zeroAi1, aiInstrs, hg, ih, pushBack]

theorem aiInstrs_not_call (TD : TargetData) (gs : List GlobalVar) :
    ∀ x ∈ aiInstrs TD gs, Instr.isCallCand x = false := by
  induction gs with
  | nil => simp [aiInstrs]
  | cons g rest ih =>
    by_cases hg : isAiState g
    · simp only [aiInstrs, hg, if_true]
      simp [List.forall_mem_append, or_imp, forall_and, forall_eq, Instr.isCallCand]
      exact ih
    · simp only [aiInstrs, hg, if_false, List.nil_append]
      exact ih

theorem globalsBeforeCall_append (l1 : List Instr) :
    ∀ (vals : String → GVal) (l2 : List Instr),
      (∀ x ∈ l1, Instr.touchesGlobals x = false) →
      globalsBeforeCall vals (l1 ++ l2) = globalsBeforeCall vals l2 := by
  induction l1 with
  | nil => intro vals l2 _; rfl
  | cons x rest ih =>
    intro vals l2 h
    have hx := h x (List.mem_cons_self x rest)
    have hr : ∀ y ∈ rest, Instr.touchesGlobals y = false :=
      fun y hy => h y (List.mem_cons_of_mem x hy)
    cases x with
    | kleeMakeSymbolic target s t =>
      cases target with
      | globalVar g => simp [Instr.touchesGlobals] at hx
      | buffer i => exact ih vals l2 hr
      | scalar i => exact ih vals l2 hr
    | storeZeroVolatile g => simp [Instr.touchesGlobals] at hx
    | callCandidate f a => simp [Instr.touchesGlobals] at hx
    | malloc i s a => exact ih vals l2 hr
    | bitcastToVoidPtr i => exact ih vals l2 hr
    | gepInBounds i k => exact ih vals l2 hr
    | bitcastToParamTy i => exact ih vals l2 hr
    | allocaScalar i => exact ih vals l2 hr
    | loadScalar i => exact ih vals l2 hr
    | loadGlobalVolatile g => exact ih vals l2 hr
    | addSum => exact ih vals l2 hr
    | icmpSumEqZero => exact ih vals l2 hr
    | condBr a b => exact ih vals l2 hr
    | callAssertFail m f l fn nr => exact ih vals l2 hr
    | unreachable => exact ih vals l2 hr
    | retZero => exact ih vals l2 hr

theorem callArgs_skip (l1 : List Instr) :
    ∀ (f : String) (a : List Val) (l2 : List Instr),
      (∀ x ∈ l1, Instr.isCallCand x = false) →
      callArgs (l1 ++ Instr.callCandidate f a :: l2) = some a := by
  induction l1 with
  | nil => intro f a l2 _; rfl
  | cons x rest ih =>
    intro f a l2 h
    have hx := h x (List.mem_cons_self x rest)
    have hr : ∀ y ∈ rest, Instr.isCallCand y = false :=
      fun y hy => h y (List.mem_cons_of_mem x hy)
    cases x with
    | callCandidate g b => simp [Instr.isCallCand] at hx
    | kleeMakeSymbolic target s t => exact ih f a l2 hr
    | storeZeroVolatile g => exact ih f a l2 hr
    | malloc i s ars => exact ih f a l2 hr
    | bitcastToVoidPtr i => exact ih f a l2 hr
    | gepInBounds i k => exact ih f a l2 hr
    | bitcastToParamTy i => exact ih f a l2 hr
    | allocaScalar i => exact ih f a l2 hr
    | loadScalar i => exact ih f a l2 hr
    | loadGlobalVolatile g => exact ih f a l2 hr
    | addSum => exact ih f a l2 hr
    | icmpSumEqZero => exact ih f a l2 hr
    | condBr c d => exact ih f a l2 hr
    | callAssertFail m fl ln fn nr => exact ih f a l2 hr
    | unreachable => exact ih f a l2 hr
    | retZero => exact ih f a l2 hr

theorem globalsBeforeCall_aiInstrs (TD : TargetData) (gs : List GlobalVar) :
    ∀ (vals : String → GVal) (f : String) (a : List Val) (l2 : List Instr) (n : String),
      globalsBeforeCall vals (aiInstrs TD gs ++ Instr.callCandidate f a :: l2) n =
        if n ∈ aiNames gs then GVal.conc 0 else vals n := by
  induction gs with
  | nil =>
    intro vals f a l2 n
    simp [aiInstrs, aiNames, globalsBeforeCall]
  | cons g rest ih =>
    intro vals f a l2 n
    by_cases hg : isAiState g
    · have hstep : globalsBeforeCall vals
          (aiInstrs TD (g :: rest) ++ Instr.callCandidate f a :: l2) n =
          globalsBeforeCall
            (upd (upd vals (gName g) (.symbolic (gName g))) (gName g) (.conc 0))
            (aiInstrs TD rest ++ Instr.callCandidate f a :: l2) n := by
        simp [aiInstrs, hg, globalsBeforeCall]
      rw [hstep, ih]
      have hnames : aiNames (g :: rest) = gName g :: aiNames rest := by
        simp [aiNames, hg]
      rw [hnames]
      by_cases hn : n ∈ aiNames rest
      · simp [hn, List.mem_cons]
      · by_cases hng : n = gName g <;> simp [hn, hng, upd]
    · have hstep : aiInstrs TD (g :: rest) = aiInstrs TD rest := by
        simp [aiInstrs, hg]
      have hnames : aiNames (g :: rest) = aiNames rest := by
        simp [aiNames, hg]
      rw [hstep, hnames, ih]

theorem evalCheck_sumInstrs (gs : List GlobalVar) :
    ∀ (vals : String → Nat) (l s : Nat) (flag : Bool),
      evalCheck vals
          (sumInstrs gs ++ [Instr.icmpSumEqZero, Instr.condBr "final" "assertBB"]) l s flag =
        some (if sumAiState vals gs s = 0 then "final" else "assertBB") := by
  induction gs with
  | nil =>
    intro vals l s flag
    by_cases hs : s = 0 <;> simp [sumInstrs, sumAiState, evalCheck, hs]
  | cons g rest ih =>
    intro vals l s flag
    by_cases hg : isAiState g
    · have hstep : evalCheck vals
          (sumInstrs (g :: rest) ++ [Instr.icmpSumEqZero, Instr.condBr "final" "assertBB"])
          l s flag =
          evalCheck vals
            (sumInstrs rest ++ [Instr.icmpSumEqZero, Instr.condBr "final" "assertBB"])
            (vals (gName g)) ((vals (gName g) + s) % 2 ^ 32) flag := by
        simp [sumInstrs, hg, evalCheck]
      rw [hstep, ih]
      simp [sumAiState, hg]
    · have hstep : sumInstrs (g :: rest) = sumInstrs rest := by simp [sumInstrs, hg]
      rw [hstep, ih]
      simp [sumAiState, hg]

theorem argsFrom_length_le (ps : List Param) :
    ∀ idx : Nat, (argsFrom idx ps).length ≤ ps.length := by
  induction ps with
  | nil => intro idx; simp [argsFrom]
  | cons p rest ih =>
    intro idx
    cases hv : valOf idx p <;> simp [argsFrom, hv]
    · exact Nat.le_succ_of_le (ih (idx + 1))
    · exact ih (idx + 1)

theorem argsFrom_length_lt (ps : List Param) :
    ∀ (idx : Nat) (p : Param), p ∈ ps → isPtrOrInt p.type = false →
      (argsFrom idx ps).length < ps.length := by
  induction ps with
  | nil => intro idx p hp; cases hp
  | cons q rest ih =>
    intro idx p hp hnp
    rcases List.mem_cons.mp hp with rfl | hp'
    · have hv : valOf idx p = none := by
        cases hpt : p.type <;> simp [isPtrOrInt, hpt] at hnp ⊢ <;> simp [valOf, hpt]
      simp only [argsFrom, hv, List.length_cons]
      exact Nat.lt_succ_of_le (argsFrom_length_le rest (idx + 1))
    · cases hv : valOf idx q <;> simp only [argsFrom, hv, List.length_cons]
      · exact Nat.lt_succ_of_lt (ih (idx + 1) p hp' hnp)
      · exact Nat.succ_lt_succ (ih (idx + 1) p hp' hnp)

theorem argsFrom_types (ps : List Param) :
    ∀ idx : Nat, (∀ p ∈ ps, isPtrOrInt p.type = true) →
      (argsFrom idx ps).map Val.type = ps.map Param.type := by
  induction ps with
  | nil => intro idx _; simp [argsFrom]
  | cons p rest ih =>
    intro idx hall
    have hp := hall p (List.mem_cons_self p rest)
    have hrest := ih (idx + 1) fun q hq => hall q (List.mem_cons_of_mem p hq)
    cases hpt : p.type <;> simp [isPtrOrInt, hpt] at hp <;>
      simp [argsFrom, valOf, hpt, Val.type, hrest]

theorem check_of_types (tys : List Ty) (va : Bool) (args : List Val)
    (h : args.map Val.type = tys) : check tys va args = true := by
  subst h
  simp only [check, List.length_map, Bool.and_eq_true, Bool.or_eq_true,
    decide_eq_true_eq, List.all_eq_true]
  refine ⟨Or.inl trivial, ?_⟩
  intro i hi
  have hi' : i < args.length := List.mem_range.mp hi
  refine Or.inr ?_
  rw [List.getD_eq_getElem?_getD, List.getD_eq_getElem?_getD, List.getElem?_map,
    List.getElem?_eq_getElem hi']
  rfl

theorem check_short (tys : List Ty) (va : Bool) (args : List Val)
    (h : args.length < tys.length) : check tys va args = false := by
  have h1 : decide (args.length = tys.length) = false := by
    simp [Nat.ne_of_lt h]
  have h2 : decide (args.length > tys.length) = false := by
    simp [Nat.not_lt.mpr (Nat.le_of_lt h)]
  simp [check, h1, h2]

theorem zeroAi1_gname (g : GlobalVar) : (zeroAi1 g).gname = g.gname := by
  by_cases h : isAiState g <;> simp [zeroAi1, h]

theorem addGlobal1_gname (g : GlobalVar) : (addGlobal1 g).gname = g.gname := by
  by_cases h : g.isDecl && g.init.isNone <;> simp [addGlobal1, h]

theorem isAiState_eq_of_gname (g h : GlobalVar) (e : g.gname = h.gname) :
    isAiState g = isAiState h := by
  simp [isAiState, e]

/-- Every named `__ai_state_` global of the emitted globals list carries the
`i32 0` initializer. -/
theorem ai_init_zero (gs : List GlobalVar) :
    ∀ g ∈ addGlobals (zeroAi gs), isAiState g = true → g.init = some Initzr.i32Zero := by
  intro g hg hai
  simp only [addGlobals, zeroAi, List.map_map, List.mem_map, Function.comp_apply] at hg
  obtain ⟨g0, _, rfl⟩ := hg
  have hname : (addGlobal1 (zeroAi1 g0)).gname = g0.gname := by
    rw [addGlobal1_gname, zeroAi1_gname]
  have h0 : isAiState g0 = true := by
    rw [← isAiState_eq_of_gname _ _ hname]; exact hai
  have hz : zeroAi1 g0 = { g0 with init := some Initzr.i32Zero } := by simp [zeroAi1, h0]
  rw [hz]
  simp [addGlobal1, Option.isNone]

theorem mem_aiNames (gs : List GlobalVar) :
    ∀ g ∈ addGlobals (zeroAi gs), isAiState g = true → gName g ∈ aiNames gs := by
  intro g hg hai
  simp only [addGlobals, zeroAi, List.map_map, List.mem_map, Function.comp_apply] at hg
  obtain ⟨g0, hg0, rfl⟩ := hg
  have hname : (addGlobal1 (zeroAi1 g0)).gname = g0.gname := by
    rw [addGlobal1_gname, zeroAi1_gname]
  have h0 : isAiState g0 = true := by
    rw [← isAiState_eq_of_gname _ _ hname]; exact hai
  simp only [aiNames, List.mem_filterMap]
  refine ⟨g0, hg0, ?_⟩
  simp [h0, gName, hname]

theorem addGlobals_decl_init (gs : List GlobalVar) :
    ∀ g ∈ addGlobals gs, g.isDecl = true → g.init ≠ none := by
  intro g hg hd
  simp only [addGlobals, List.mem_map] at hg
  obtain ⟨g0, _, rfl⟩ := hg
  by_cases hc : (g0.isDecl && g0.init.isNone) = true
  · simp only [addGlobal1]
    rw [if_pos hc]
    simp
  · simp only [addGlobal1] at hd ⊢
    rw [if_neg hc] at hd ⊢
    rw [Bool.and_eq_true] at hc
    intro hnone
    exact hc ⟨hd, by simp [hnone]⟩

theorem postCallSuffix_skip (l1 : List Instr) :
    ∀ (f : String) (a : List Val) (l2 : List Instr),
      (∀ x ∈ l1, Instr.isCallCand x = false) →
      postCallSuffix (l1 ++ Instr.callCandidate f a :: l2) = some l2 := by
  induction l1 with
  | nil => intro f a l2 _; rfl
  | cons x rest ih =>
    intro f a l2 h
    have hx := h x (List.mem_cons_self x rest)
    have hr : ∀ y ∈ rest, Instr.isCallCand y = false :=
      fun y hy => h y (List.mem_cons_of_mem x hy)
    cases x with
    | callCandidate g b => simp [Instr.isCallCand] at hx
    | kleeMakeSymbolic target s t => exact ih f a l2 hr
    | storeZeroVolatile g => exact ih f a l2 hr
    | malloc i s ars => exact ih f a l2 hr
    | bitcastToVoidPtr i => exact ih f a l2 hr
    | gepInBounds i k => exact ih f a l2 hr
    | bitcastToParamTy i => exact ih f a l2 hr
    | allocaScalar i => exact ih f a l2 hr
    | loadScalar i => exact ih f a l2 hr
    | loadGlobalVolatile g => exact ih f a l2 hr
    | addSum => exact ih f a l2 hr
    | icmpSumEqZero => exact ih f a l2 hr
    | condBr c d => exact ih f a l2 hr
    | callAssertFail m fl ln fn nr => exact ih f a l2 hr
    | unreachable => exact ih f a l2 hr
    | retZero => exact ih f a l2 hr

theorem emitParam_fst_mono (TD : TargetData) (idx : Nat) (p : Param) (bb : List Instr)
    (x : Instr) (hx : x ∈ bb) : x ∈ (emitParam TD idx p bb).1 := by
  obtain ⟨pn, pt⟩ := p
  cases pt with
  | ptrTy e =>
    by_cases he : e = Ty.intTy 8 <;>
      simp [emitParam, he, pushBack, pushFront, hx]
  | intTy b => simp [emitParam, pushBack, pushFront, hx]
  | structTy s n => simpa [emitParam] using hx
  | funcTy => simpa [emitParam] using hx
  | otherTy s i => simpa [emitParam] using hx

theorem emitParams_fst_mono (TD : TargetData) (ps : List Param) :
    ∀ (idx : Nat) (bb : List Instr) (x : Instr),
      x ∈ bb → x ∈ (emitParams TD idx ps bb).1 := by
  induction ps with
  | nil => intro idx bb x hx; exact hx
  | cons p rest ih =>
    intro idx bb x hx
    exact ih (idx + 1) _ x (emitParam_fst_mono TD idx p bb x hx)

theorem emitParams_ptr_facts (TD : TargetData) (ps : List Param) :
    ∀ (idx j : Nat) (bb : List Instr) (p : Param) (e : Ty),
      ps[j]? = some p → p.type = .ptrTy e →
      Instr.malloc (idx + j) (getTypeSize TD e) 4000 ∈ (emitParams TD idx ps bb).1 ∧
      Instr.kleeMakeSymbolic (.buffer (idx + j)) (4000 * getTypeSize TD e % 2 ^ 32) (tagOf p)
        ∈ (emitParams TD idx ps bb).1 ∧
      Val.bufferOffset (idx + j) 2000 (.ptrTy e) ∈ argsFrom idx ps := by
  induction ps with
  | nil => intro idx j bb p e hj _; simp at hj
  | cons q rest ih =>
    intro idx j bb p e hj hpt
    cases j with
    | zero =>
      simp only [List.getElem?_cons_zero, Option.some.injEq] at hj
      subst hj
      obtain ⟨pn, pt⟩ := q
      simp only [Param.type] at hpt
      subst hpt
      simp only [Nat.add_zero]
      refine ⟨?_, ?_, ?_⟩
      · show Instr.malloc idx (getTypeSize TD e) 4000 ∈
          (emitParams TD (idx + 1) rest (emitParam TD idx ⟨pn, .ptrTy e⟩ bb).1).1
        apply emitParams_fst_mono
        by_cases he : e = Ty.intTy 8 <;> simp [emitParam, he, pushBack]
      · show Instr.kleeMakeSymbolic (.buffer idx) (4000 * getTypeSize TD e % 2 ^ 32)
            (tagOf ⟨pn, .ptrTy e⟩) ∈
          (emitParams TD (idx + 1) rest (emitParam TD idx ⟨pn, .ptrTy e⟩ bb).1).1
        apply emitParams_fst_mono
        by_cases he : e = Ty.intTy 8 <;> simp [emitParam, he, pushBack]
      · simp [argsFrom, valOf]
    | succ j' =>
      simp only [List.getElem?_cons_succ] at hj
      have h := ih (idx + 1) j' (emitParam TD idx q bb).1 p e hj hpt
      have harith : idx + (j' + 1) = idx + 1 + j' := by omega
      refine ⟨?_, ?_, ?_⟩
      · rw [harith]; exact h.1
      · rw [harith]; exact h.2.1
      · rw [harith]
        cases hv : valOf idx q <;> simp only [argsFrom, hv, List.mem_cons]
        · exact h.2.2
        · exact Or.inr h.2.2

theorem mem_aiInstrs (TD : TargetData) (gs : List GlobalVar) :
    ∀ n ∈ aiNames gs,
      Instr.kleeMakeSymbolic (.globalVar n) (getTypeSize TD (.intTy 32)) n ∈ aiInstrs TD gs ∧
      Instr.storeZeroVolatile n ∈ aiInstrs TD gs := by
  induction gs with
  | nil => simp [aiNames]
  | cons g rest ih =>
    intro n hn
    by_cases hg : isAiState g
    · simp only [aiNames, List.filterMap_cons, hg, if_true] at hn
      simp only [aiInstrs, hg, if_true]
      rcases List.mem_cons.mp hn with rfl | hn'
      · constructor <;> simp
      · have h := ih n hn'
        exact ⟨List.mem_append_right _ h.1, List.mem_append_right _ h.2⟩
    · simp only [aiNames, List.filterMap_cons, hg, if_false] at hn
      simp only [aiInstrs, hg, if_false, List.nil_append]
      exact ih n hn

theorem verifierGate_true (va : VerifierAction) : verifierGate va true = true := by
  cases va <;> rfl

theorem verifierGate_print (b : Bool) : verifierGate .printMessage b = true := by
  cases b <;> rfl

/-- Forward evaluation of a successful `writeMain`: when every parameter is
pointer- or integer-typed, the output file opens, and the verifier accepts
everything, `writeMain` writes one artifact, erases the two scaffolding
functions, and keeps the global mutations. -/
theorem writeMain_eq_written (TD : TargetData) (env : WriteEnv) (M : LModule) (F : Func)
    (hsig : ∀ p ∈ F.params, isPtrOrInt p.type = true)
    (hopen : env.openOk (artifactName M F) = true)
    (hver : ∀ m, env.verifierValid m = true) :
    writeMain TD env M F =
      (moduleAfterWrite M, .written (successArtifact TD M F)) := by
  have hch : check (F.params.map Param.type) F.isVarArg (argsFrom 0 F.params) = true :=
    check_of_types _ _ _ (argsFrom_types F.params 0 hsig)
  simp only [writeMain, emitParams_snd, makeAiStateSymbolic_eq, hch, if_true, hopen,
    hver, verifierGate_true, checkAiState, pushBack, moduleAfterWrite, successArtifact]
  simp [dropLast_pair, List.append_assoc]

/-- Inversion of a `written` outcome: the structure of the final module and
of the artifact, for any environment. -/
theorem writeMain_written_inv (TD : TargetData) (env : WriteEnv) (M : LModule) (F : Func)
    (M' : LModule) (art : Artifact)
    (h : writeMain TD env M F = (M', .written art)) :
    M' = moduleAfterWrite M ∧ art = successArtifact TD M F := by
  simp only [writeMain, emitParams_snd, makeAiStateSymbolic_eq, checkAiState,
    pushBack] at h
  split at h
  · split at h
    · split at h
      · simp only [Prod.mk.injEq, WriteOutcome.written.injEq] at h
        obtain ⟨h1, h2⟩ := h
        constructor
        · rw [← h1, moduleAfterWrite, dropLast_pair]
        · rw [← h2]
          simp [successArtifact, List.append_assoc]
      · simp at h
    · simp at h
  · simp at h

/-- Forward evaluation of a `writeMain` whose output file fails to open:
report and return, with the scaffolding and global mutations in place. -/
theorem writeMain_eq_ioError (TD : TargetData) (env : WriteEnv) (M : LModule) (F : Func)
    (hsig : ∀ p ∈ F.params, isPtrOrInt p.type = true)
    (hopen : env.openOk (artifactName M F) = false) :
    writeMain TD env M F = (moduleAtVerify M F, .ioError) := by
  have hch : check (F.params.map Param.type) F.isVarArg (argsFrom 0 F.params) = true :=
    check_of_types _ _ _ (argsFrom_types F.params 0 hsig)
  simp only [writeMain, emitParams_snd, makeAiStateSymbolic_eq, hch, if_true, hopen,
    moduleAtVerify]
  simp

/-- Forward evaluation of a `writeMain` on a candidate with a dropped
parameter: the `assert` in `check` fires before the call is created. -/
theorem writeMain_eq_signatureAbort (TD : TargetData) (env : WriteEnv) (M : LModule)
    (F : Func) (p : Param) (hp : p ∈ F.params) (hnp : isPtrOrInt p.type = false) :
    writeMain TD env M F =
      (moduleAtVerify M F,
       .signatureAbort ((emitParams TD 0 F.params []).1 ++ aiInstrs TD M.globals)) := by
  have hch : check (F.params.map Param.type) F.isVarArg (argsFrom 0 F.params) = false := by
    apply check_short
    rw [List.length_map]
    exact argsFrom_length_lt F.params 0 p hp hnp
  simp only [writeMain, emitParams_snd, makeAiStateSymbolic_eq, hch, moduleAtVerify]
  simp

/-- The candidate loop under an all-successful environment: it runs to the
end (the completion flag is never set) and writes one artifact per
qualifying candidate, in order. -/
theorem runLoop_allOk (TD : TargetData) (env : WriteEnv) (CG : Callgraph)
    (hopen : ∀ s, env.openOk s = true) (hver : ∀ m, env.verifierValid m = true) :
    ∀ (cands : List Func) (M : LModule) (arts : List Artifact),
      (∀ c ∈ cands, qualifies CG c = true → ∀ p ∈ c.params, isPtrOrInt p.type = true) →
      ∃ (M' : LModule) (arts2 : List Artifact),
        runLoop TD env CG cands false M arts = .finished M' (arts ++ arts2) false ∧
        M'.moduleId = M.moduleId ∧
        arts2.map Artifact.name =
          (cands.filter fun c => qualifies CG c).map
            (fun c => M.moduleId ++ ".main." ++ c.fname ++ ".o") := by
  intro cands
  induction cands with
  | nil =>
    intro M arts _
    exact ⟨M, [], by simp [runLoop], rfl, by simp⟩
  | cons F rest ih =>
    intro M arts hall
    by_cases hq : qualifies CG F = true
    · have hw := writeMain_eq_written TD env M F (hall F (List.mem_cons_self F rest) hq)
        (hopen _) hver
      have hstep : runLoop TD env CG (F :: rest) false M arts =
          runLoop TD env CG rest false (moduleAfterWrite M)
            (arts ++ [successArtifact TD M F]) := by
        simp [runLoop, hq, hw]
      obtain ⟨M', arts2, hrl, hmid, hnames⟩ :=
        ih (moduleAfterWrite M) (arts ++ [successArtifact TD M F])
          (fun c hc hqc => hall c (List.mem_cons_of_mem F hc) hqc)
      refine ⟨M', successArtifact TD M F :: arts2, ?_, ?_, ?_⟩
      · rw [hstep, hrl]
        simp
      · simpa [moduleAfterWrite] using hmid
      · rw [List.filter_cons_of_pos hq, List.map_cons, List.map_cons]
        exact congrArg₂ List.cons rfl (by simpa [moduleAfterWrite] using hnames)
    · have hstep : runLoop TD env CG (F :: rest) false M arts =
          runLoop TD env CG rest false M arts := by
        simp [runLoop, hq]
      obtain ⟨M', arts2, hrl, hmid, hnames⟩ :=
        ih M arts (fun c hc hqc => hall c (List.mem_cons_of_mem F hc) hqc)
      refine ⟨M', arts2, ?_, hmid, ?_⟩
      · rw [hstep, hrl]
      · rw [List.filter_cons_of_neg (by simpa using hq)]
        exact hnames

/-! ### Claim theorems -/

/-- Claim C3: in every emitted artifact, every global variable whose name
starts with `__ai_state_` has its initializer set to integer zero and, after
being marked symbolic, receives a volatile store of the concrete value zero
in the harness entry block before the candidate is called — so its value at
harness entry to the candidate is concretely zero regardless of the
initializer it had in the loaded representation (modelled by
`globalsBeforeCall` over an arbitrary initial valuation). -/
theorem c3_state_vars_zero_at_entry (TD : TargetData) (env : WriteEnv)
    (M M' : LModule) (F : Func) (art : Artifact)
    (hw : writeMain TD env M F = (M', .written art)) :
    ∀ g ∈ art.globals, isAiState g = true →
      g.init = some Initzr.i32Zero ∧
      Instr.kleeMakeSymbolic (.globalVar (gName g)) (getTypeSize TD (.intTy 32)) (gName g)
        ∈ art.main.entry ∧
      Instr.storeZeroVolatile (gName g) ∈ art.main.entry ∧
      ∀ vals : String → GVal,
        globalsBeforeCall vals art.main.entry (gName g) = GVal.conc 0 := by
  obtain ⟨hM', hart⟩ := writeMain_written_inv TD env M F M' art hw
  subst hart
  simp only [successArtifact]
  intro g hg hai
  have hname : gName g ∈ aiNames M.globals := mem_aiNames M.globals g hg hai
  have hinstrs := mem_aiInstrs TD M.globals (gName g) hname
  have hneutral : ∀ x ∈ (emitParams TD 0 F.params []).1, Instr.touchesGlobals x = false :=
    emitParams_fst_neutral TD F.params 0 [] (by intro x hx; cases hx)
  refine ⟨ai_init_zero M.globals g hg hai, ?_, ?_, ?_⟩
  · exact List.mem_append_left _ (List.mem_append_right _ hinstrs.1)
  · exact List.mem_append_left _ (List.mem_append_right _ hinstrs.2)
  · intro vals
    rw [List.append_assoc, globalsBeforeCall_append _ vals _ hneutral,
      globalsBeforeCall_aiInstrs]
    simp [hname]

/-- Claim C4: in every synthesized harness, immediately after the call to the
candidate the current values of all `__ai_state_` globals are loaded and
summed; a zero sum branches to the `final` block, which returns status 0, a
nonzero sum branches to the failure block, which calls the no-return
`__assert_fail` with the fixed message "leaving function with lock held" and
ends in an `unreachable` terminator. -/
theorem c4_post_call_invariant_check (TD : TargetData) (env : WriteEnv)
    (M M' : LModule) (F : Func) (art : Artifact)
    (hw : writeMain TD env M F = (M', .written art)) :
    art.main.finalBB = [Instr.retZero] ∧
    art.main.assertBB =
      [Instr.callAssertFail "leaving function with lock held" "n/a" 0 "main" true,
       Instr.unreachable] ∧
    ∃ post, postCallSuffix art.main.entry = some post ∧
      ∀ vals : String → Nat,
        evalCheck vals post 0 0 false =
          some (if sumAiState vals art.globals 0 = 0 then "final" else "assertBB") := by
  obtain ⟨hM', hart⟩ := writeMain_written_inv TD env M F M' art hw
  subst hart
  simp only [successArtifact]
  have hnc : ∀ x ∈ (emitParams TD 0 F.params []).1 ++ aiInstrs TD M.globals,
      Instr.isCallCand x = false := by
    rw [List.forall_mem_append]
    exact ⟨fun x hx => not_call_of_not_touches x
        (emitParams_fst_neutral TD F.params 0 [] (by intro y hy; cases hy) x hx),
      aiInstrs_not_call TD M.globals⟩
  refine ⟨trivial, trivial,
    sumInstrs (addGlobals (zeroAi M.globals)) ++
      [Instr.icmpSumEqZero, Instr.condBr "final" "assertBB"], ?_, ?_⟩
  · exact postCallSuffix_skip _ _ _ _ hnc
  · intro vals
    exact evalCheck_sumInstrs (addGlobals (zeroAi M.globals)) vals 0 0 false

/-- Claim C2 (amended): for every pointer-typed formal parameter `P` (at
position `j`, pointee `e`) of a candidate whose harness is written, the
harness allocates a heap buffer of 4000 elements of byte size
`getTypeSize TD e` (struct layout size for sized structs, fallback 100 for
other unsized types, pointer width for function types, allocation size
otherwise, each truncated to `unsigned`), marks `4000 * getTypeSize TD e`
bytes (in 32-bit arithmetic) symbolic tagged with `P`'s name (or "noname"),
and passes as actual argument the address 2000 **bytes** past the start of
the buffer — the address of element 2000 only when the element byte size
is 1, because the GEP with index 2000 is applied to an `i8*` value. -/
theorem c2_amended_pointer_params (TD : TargetData) (env : WriteEnv)
    (M M' : LModule) (F : Func) (art : Artifact) (j : Nat) (p : Param) (e : Ty)
    (hw : writeMain TD env M F = (M', .written art))
    (hj : F.params[j]? = some p) (hpt : p.type = .ptrTy e) :
    Instr.malloc j (getTypeSize TD e) 4000 ∈ art.main.entry ∧
    Instr.kleeMakeSymbolic (.buffer j) (4000 * getTypeSize TD e % 2 ^ 32) (tagOf p)
      ∈ art.main.entry ∧
    callArgs art.main.entry = some (argsFrom 0 F.params) ∧
    Val.bufferOffset j 2000 (.ptrTy e) ∈ argsFrom 0 F.params ∧
    getTypeSize TD .funcTy = TD.pointerSize % 2 ^ 32 ∧
    (∀ n, getTypeSize TD (.structTy true n) = n % 2 ^ 32) ∧
    (∀ n, getTypeSize TD (.structTy false n) = 100) ∧
    (∀ i, getTypeSize TD (.otherTy false i) = 100) ∧
    (∀ i, getTypeSize TD (.otherTy true i) = TD.typeAllocSize (.otherTy true i) % 2 ^ 32) ∧
    (∀ b, getTypeSize TD (.intTy b) = TD.typeAllocSize (.intTy b) % 2 ^ 32) := by
  obtain ⟨hM', hart⟩ := writeMain_written_inv TD env M F M' art hw
  subst hart
  simp only [successArtifact]
  have hfacts := emitParams_ptr_facts TD F.params 0 j [] p e hj hpt
  simp only [Nat.zero_add] at hfacts
  have hnc : ∀ x ∈ (emitParams TD 0 F.params []).1 ++ aiInstrs TD M.globals,
      Instr.isCallCand x = false := by
    rw [List.forall_mem_append]
    exact ⟨fun x hx => not_call_of_not_touches x
        (emitParams_fst_neutral TD F.params 0 [] (by intro y hy; cases hy) x hx),
      aiInstrs_not_call TD M.globals⟩
  refine ⟨?_, ?_, ?_, hfacts.2.2, ?_, ?_, ?_, ?_, ?_, ?_⟩
  · exact List.mem_append_left _ (List.mem_append_left _ hfacts.1)
  · exact List.mem_append_left _ (List.mem_append_left _ hfacts.2.1)
  · exact callArgs_skip _ _ _ _ hnc
  · rfl
  · intro n; rfl
  · intro n
    show 100 % 2 ^ 32 = 100
    norm_num
  · intro i
    show 100 % 2 ^ 32 = 100
    norm_num
  · intro i; rfl
  · intro b; rfl

/-- Claim C8: a candidate with a formal parameter that is neither
pointer-typed nor integer-typed gets that parameter dropped from the
constructed argument list (strictly fewer arguments than parameters); the
arity assertion of the pre-call signature validation `check` then fails
deterministically, aborting `writeMain` before any call instruction to the
candidate is emitted — the entry block built so far contains no call to the
candidate. -/
theorem c8_dropped_param_aborts (TD : TargetData) (env : WriteEnv) (M : LModule)
    (F : Func) (p : Param) (hp : p ∈ F.params) (hnp : isPtrOrInt p.type = false) :
    (argsFrom 0 F.params).length < F.params.length ∧
    check (F.params.map Param.type) F.isVarArg (argsFrom 0 F.params) = false ∧
    (writeMain TD env M F).2 =
      .signatureAbort ((emitParams TD 0 F.params []).1 ++ aiInstrs TD M.globals) ∧
    ∀ x ∈ (emitParams TD 0 F.params []).1 ++ aiInstrs TD M.globals,
      Instr.isCallCand x = false := by
  refine ⟨argsFrom_length_lt F.params 0 p hp hnp, ?_, ?_, ?_⟩
  · apply check_short
    rw [List.length_map]
    exact argsFrom_length_lt F.params 0 p hp hnp
  · rw [writeMain_eq_signatureAbort TD env M F p hp hnp]
  · rw [List.forall_mem_append]
    exact ⟨fun x hx => not_call_of_not_touches x
        (emitParams_fst_neutral TD F.params 0 [] (by intro y hy; cases hy) x hx),
      aiInstrs_not_call TD M.globals⟩

/-- Claim C5 (amended): when the well-formedness verifier rejects the
representation synthesized for a candidate, `writeMain` does not skip that
candidate and continue — the source never consults the verdict.  Under the
verifier pass's abort-on-failure action the whole process terminates; were
the verifier to merely report and return, the artifact would be written
anyway.  Only an output-open failure is handled as report-and-skip. -/
theorem c5_amended_verifier_not_consulted (TD : TargetData) (env : WriteEnv)
    (M : LModule) (F : Func)
    (hsig : ∀ p ∈ F.params, isPtrOrInt p.type = true)
    (hopen : env.openOk (artifactName M F) = true)
    (hval : env.verifierValid (moduleAtVerify M F) = false) :
    (env.verifierAction = .abortProcess →
      writeMain TD env M F = (moduleAtVerify M F, .processAborted)) ∧
    (env.verifierAction = .printMessage →
      (writeMain TD env M F).2.isWritten = true) := by
  have hch : check (F.params.map Param.type) F.isVarArg (argsFrom 0 F.params) = true :=
    check_of_types _ _ _ (argsFrom_types F.params 0 hsig)
  simp only [moduleAtVerify] at hval
  constructor <;> intro hva <;>
    simp [writeMain, emitParams_snd, makeAiStateSymbolic_eq, hch, hopen, hva, hval,
      verifierGate, moduleAtVerify, WriteOutcome.isWritten]

/-- Claim C6: if the module has no function named `__assert_fail`, or the
call graph reports zero call sites invoking it, `run` terminates
successfully (returning `false`), produces zero artifacts, and leaves the
module unmutated. -/
theorem c6_absent_or_uncalled_noop (TD : TargetData) (env : WriteEnv) (CG : Callgraph)
    (initFuns : List Func) (M : LModule)
    (h : M.functions.find? (fun f => f.fname == "__assert_fail") = none ∨
         (CG.callees "__assert_fail").length = 0) :
    run TD env CG initFuns M = .finished M [] false := by
  rcases h with h | h
  · simp [run, h]
  · unfold run
    cases hf : M.functions.find? (fun f => f.fname == "__assert_fail") <;> simp [h]

/-- Claim C7: when the failure-reporting function exists and has callers, a
candidate is qualified — and one artifact named
`<module-id>.main.<candidate-name>.o` is produced for it — exactly when some
(call-site, resolved-callee) pair of `calls(C)` has callee `__assert_fail`
(a direct edge; reachability through intermediate callees is never
evaluated): the artifact-name list of the run equals the map over the
filtered candidate list. -/
theorem c7_direct_edge_one_artifact (TD : TargetData) (env : WriteEnv) (CG : Callgraph)
    (cands : List Func) (M : LModule)
    (hsig : ∀ c ∈ cands, qualifies CG c = true → ∀ p ∈ c.params, isPtrOrInt p.type = true)
    (hopen : ∀ s, env.openOk s = true) (hver : ∀ m, env.verifierValid m = true)
    (hF : (M.functions.find? fun f => f.fname == "__assert_fail").isSome = true)
    (hc : (CG.callees "__assert_fail").length ≠ 0) :
    ∃ (M' : LModule) (arts : List Artifact),
      run TD env CG cands M = .finished M' arts false ∧
      arts.map Artifact.name =
        (cands.filter fun c =>
            (CG.calls c.fname).any fun e => e.callee == "__assert_fail").map
          fun c => M.moduleId ++ ".main." ++ c.fname ++ ".o" := by
  obtain ⟨fd, hfd⟩ := Option.isSome_iff_exists.mp hF
  obtain ⟨M', arts2, hrl, _, hnames⟩ := runLoop_allOk TD env CG hopen hver cands M [] hsig
  refine ⟨M', arts2, ?_, ?_⟩
  · simp only [run, hfd]
    rw [if_neg hc]
    simpa using hrl
  · simpa [qualifies] using hnames

/-- Claim C1 (amended): the internal completion flag is initialized `false`
and never set — the assignment at line 329 is commented out — so candidate
iteration is not halted after the first successfully synthesized harness:
for candidate list `[A, B]` with both qualifying (and writes succeeding),
both `A`'s and `B`'s artifacts are produced in one run. -/
theorem c1_amended_no_early_stop (TD : TargetData) (env : WriteEnv) (CG : Callgraph)
    (M : LModule) (A B : Func)
    (hqA : qualifies CG A = true) (hqB : qualifies CG B = true)
    (hsA : ∀ p ∈ A.params, isPtrOrInt p.type = true)
    (hsB : ∀ p ∈ B.params, isPtrOrInt p.type = true)
    (hopen : ∀ s, env.openOk s = true) (hver : ∀ m, env.verifierValid m = true)
    (hF : (M.functions.find? fun f => f.fname == "__assert_fail").isSome = true)
    (hc : (CG.callees "__assert_fail").length ≠ 0) :
    ∃ (M' : LModule) (a b : Artifact),
      run TD env CG [A, B] M = .finished M' [a, b] false ∧
      a.name = M.moduleId ++ ".main." ++ A.fname ++ ".o" ∧
      b.name = M.moduleId ++ ".main." ++ B.fname ++ ".o" := by
  obtain ⟨fd, hfd⟩ := Option.isSome_iff_exists.mp hF
  have hsig : ∀ c ∈ [A, B], qualifies CG c = true → ∀ p ∈ c.params, isPtrOrInt p.type = true := by
    intro c hcmem
    rcases List.mem_cons.mp hcmem with rfl | h'
    · exact fun _ => hsA
    · rcases List.mem_cons.mp h' with rfl | h''
      · exact fun _ => hsB
      · cases h''
  obtain ⟨M', arts2, hrl, _, hnames⟩ := runLoop_allOk TD env CG hopen hver [A, B] M [] hsig
  rw [List.filter_cons_of_pos hqA, List.filter_cons_of_pos hqB, List.filter_nil] at hnames
  rcases arts2 with _ | ⟨a, arts3⟩
  · simp at hnames
  rcases arts3 with _ | ⟨b, arts4⟩
  · simp at hnames
  rcases arts4 with _ | ⟨c, arts5⟩
  swap
  · simp at hnames
  simp only [List.map_cons, List.map_nil, List.cons.injEq, and_true] at hnames
  refine ⟨M', a, b, ?_, hnames.1, hnames.2⟩
  simp only [run, hfd]
  rw [if_neg hc]
  simpa using hrl

/-- Claim C9: after a candidate's artifact is successfully written, the
synthesized entry function and the `klee_make_symbolic` declaration are
erased before the next candidate is processed — the module's function list
returns to its pre-synthesis state, and no scaffolding function from `A`'s
synthesis appears in `B`'s artifact (which carries only `B`'s own
scaffolding) — while the global-initializer mutations (state-variable
zeroing, zero initializers for external declarations) are not reverted. -/
theorem c9_scaffold_erased_mutations_kept (TD : TargetData) (env env2 : WriteEnv)
    (M M1 M2 : LModule) (A B : Func) (artA artB : Artifact)
    (hclean : ∀ f ∈ M.functions, f.createdFor = none)
    (hAB : A.fname ≠ B.fname)
    (hwA : writeMain TD env M A = (M1, .written artA))
    (hwB : writeMain TD env2 M1 B = (M2, .written artB)) :
    M1.functions = M.functions ∧
    mainScaffold B.fname ∈ artB.functions ∧
    kmsScaffold B.fname ∈ artB.functions ∧
    (∀ f ∈ artB.functions, f.createdFor ≠ some A.fname) ∧
    (∀ g ∈ M1.globals, isAiState g = true → g.init = some Initzr.i32Zero) ∧
    (∀ g ∈ artB.globals, isAiState g = true → g.init = some Initzr.i32Zero) ∧
    (∀ g ∈ M1.globals, g.isDecl = true → g.init ≠ none) := by
  obtain ⟨hM1, hartA⟩ := writeMain_written_inv TD env M A M1 artA hwA
  obtain ⟨hM2, hartB⟩ := writeMain_written_inv TD env2 M1 B M2 artB hwB
  subst hM1
  subst hartB
  simp only [successArtifact, moduleAfterWrite]
  refine ⟨trivial, ?_, ?_, ?_, ?_, ?_, ?_⟩
  · exact List.mem_append_right _ (by simp)
  · exact List.mem_append_right _ (by simp)
  · intro f hf
    rcases List.mem_append.mp hf with hf | hf
    · rw [hclean f hf]
      simp
    · rcases List.mem_cons.mp hf with rfl | hf
      · simp [mainScaffold]
        exact fun h => hAB h.symm
      · rcases List.mem_cons.mp hf with rfl | hf
        · simp [kmsScaffold]
          exact fun h => hAB h.symm
        · cases hf
  · exact ai_init_zero M.globals
  · exact ai_init_zero (addGlobals (zeroAi M.globals))
  · exact addGlobals_decl_init (zeroAi M.globals)

/-- Claim C10: if opening the output file for candidate `A` fails,
`writeMain` reports the error and returns before the verifier runs, before
writing, and before erasing the scaffolding: the outcome is `ioError`
regardless of the verifier oracle and action, the synthesized `main` and
`klee_make_symbolic` declarations remain in the representation, and they are
carried into the artifact of any subsequently processed candidate whose
write succeeds (cleanup happens only on the successful-write path). -/
theorem c10_io_error_keeps_scaffolding (TD : TargetData) (env : WriteEnv)
    (M : LModule) (A : Func)
    (hsig : ∀ p ∈ A.params, isPtrOrInt p.type = true)
    (hopen : env.openOk (artifactName M A) = false) :
    writeMain TD env M A = (moduleAtVerify M A, .ioError) ∧
    (moduleAtVerify M A).functions =
      M.functions ++ [mainScaffold A.fname, kmsScaffold A.fname] ∧
    (∀ (vv : LModule → Bool) (va : VerifierAction),
      writeMain TD ⟨env.openOk, vv, va⟩ M A = (moduleAtVerify M A, .ioError)) ∧
    ∀ (env2 : WriteEnv) (B : Func) (M2 : LModule) (artB : Artifact),
      writeMain TD env2 (moduleAtVerify M A) B = (M2, .written artB) →
      mainScaffold A.fname ∈ artB.functions ∧ kmsScaffold A.fname ∈ artB.functions := by
  refine ⟨writeMain_eq_ioError TD env M A hsig hopen, rfl, ?_, ?_⟩
  · intro vv va
    exact writeMain_eq_ioError TD ⟨env.openOk, vv, va⟩ M A hsig hopen
  · intro env2 B M2 artB hwB
    obtain ⟨hM2, hartB⟩ := writeMain_written_inv TD env2 (moduleAtVerify M A) B M2 artB hwB
    subst hartB
    simp only [successArtifact, moduleAtVerify]
    constructor
    · exact List.mem_append_left _ (List.mem_append_right _ (by simp))
    · exact List.mem_append_left _ (List.mem_append_right _ (by simp))

/-! ### Counterexamples and witnesses on the concrete instances -/

/-- Claim C1, counterexample: with candidate list `[A, B]`, both having a
direct call edge to `__assert_fail`, one run produces TWO artifacts — `B`'s
artifact is produced as well, because the completion flag is never set
(`done = true` at line 329 is commented out).  This refutes "exactly one
artifact (A's) is produced in one run, and B's is not". -/
theorem c1_counterexample :
    (run tdC envOK cgAB [fA, fB] mAB).artifacts.map Artifact.name =
      ["m.main.A.o", "m.main.B.o"] ∧
    (run tdC envOK cgAB [fA, fB] mAB).artifacts.length ≠ 1 := by
  constructor
  · rfl
  · decide

/-- Witness for C1 (amended) at the concrete two-candidate module. -/
theorem c1_amended_witness :
    (run tdC envOK cgAB [fA, fB] mAB).artifacts.map Artifact.name =
      [mAB.moduleId ++ ".main." ++ fA.fname ++ ".o",
       mAB.moduleId ++ ".main." ++ fB.fname ++ ".o"] := by
  obtain ⟨M', a, b, h1, h2, h3⟩ := c1_amended_no_early_stop tdC envOK cgAB mAB fA fB
    (by decide) (by decide) (by decide) (by decide) (fun s => rfl) (fun m => rfl)
    rfl (by decide)
  rw [h1]
  simp only [RunResult.artifacts, List.map_cons, List.map_nil]
  rw [h2, h3]

/-- Claim C2, counterexample: for a pointer parameter whose pointee has
allocation size 4, the actual argument passed is the address 2000 *bytes*
past the buffer start, while the address of element 2000 would be at byte
offset 8000.  This refutes "passes the address of element 2000 of that
buffer". -/
theorem c2_counterexample :
    resP.2.isWritten = true ∧
    callArgs artP.main.entry =
      some [Val.bufferOffset 0 2000 (Ty.ptrTy (Ty.otherTy true 0))] ∧
    elementByteOffset (getTypeSize tdC (Ty.otherTy true 0)) 2000 = 8000 ∧
    (2000 : Nat) ≠ 8000 := by
  exact ⟨rfl, rfl, rfl, by decide⟩

/-- Witness for C2 (amended) at the concrete pointer-parameter candidate. -/
theorem c2_amended_witness :
    Instr.malloc 0 (getTypeSize tdC (Ty.otherTy true 0)) 4000 ∈ artP.main.entry ∧
    Val.bufferOffset 0 2000 (Ty.ptrTy (Ty.otherTy true 0)) ∈ argsFrom 0 fP.params := by
  have h := c2_amended_pointer_params tdC envOK mP resP.1 fP artP 0
    ⟨some "p", .ptrTy (.otherTy true 0)⟩ (.otherTy true 0) rfl rfl rfl
  exact ⟨h.1, h.2.2.2.1⟩

/-- Witness for C3: the state variable `__ai_state_x` had original
initializer 7 in `mAB`, yet in the artifact it is zero-initialized and its
value right before the candidate call is concretely zero under an arbitrary
starting valuation. -/
theorem c3_witness :
    gXz.init = some Initzr.i32Zero ∧
    globalsBeforeCall (fun _ => GVal.conc 99) artA.main.entry "__ai_state_x" =
      GVal.conc 0 := by
  have h := c3_state_vars_zero_at_entry tdC envOK mAB mA1 fA artA rfl gXz
    (by decide) (by decide)
  exact ⟨h.1, h.2.2.2 fun _ => GVal.conc 99⟩

/-- Witness for C4: with `__ai_state_x` holding 5 after the call, the
post-call check branches to the failure block. -/
theorem c4_witness :
    artA.main.finalBB = [Instr.retZero] ∧
    evalCheck (fun _ => 5) ((postCallSuffix artA.main.entry).getD []) 0 0 false =
      some "assertBB" := by
  obtain ⟨h1, h2, post, hpost, hev⟩ :=
    c4_post_call_invariant_check tdC envOK mAB mA1 fA artA rfl
  refine ⟨h1, ?_⟩
  rw [hpost]
  simp only [Option.getD_some]
  rw [hev fun _ => 5, show sumAiState (fun _ => 5) artA.globals 0 = 5 from rfl]
  simp

/-- Claim C5, counterexample: on a candidate whose module the verifier
rejects, `writeMain` either aborts the whole process (abort-on-failure
action) or writes the artifact anyway (report-and-return action) — in no
case is the artifact skipped with the run continuing.  This refutes "the
failure is reported, no artifact is emitted for that candidate, and the run
continues". -/
theorem c5_counterexample :
    (writeMain tdC envRejectAbort mAB fA).2 = .processAborted ∧
    (writeMain tdC envRejectPrint mAB fA).2.isWritten = true :=
  ⟨rfl, rfl⟩

/-- Witness for C5 (amended) at the rejecting verifier environment. -/
theorem c5_amended_witness :
    (envRejectAbort.verifierAction = .abortProcess →
      writeMain tdC envRejectAbort mAB fA = (moduleAtVerify mAB fA, .processAborted)) ∧
    (envRejectAbort.verifierAction = .printMessage →
      (writeMain tdC envRejectAbort mAB fA).2.isWritten = true) :=
  c5_amended_verifier_not_consulted tdC envRejectAbort mAB fA (by decide) rfl rfl

/-- Witness for C6: a module without `__assert_fail` makes `run` a no-op. -/
theorem c6_witness : run tdC envOK cgNone [fA] mNoAF = .finished mNoAF [] false :=
  c6_absent_or_uncalled_noop tdC envOK cgNone [fA] mNoAF (Or.inl (by decide))

/-- Witness for C7 at the concrete two-candidate module. -/
theorem c7_witness :
    (run tdC envOK cgAB [fA, fB] mAB).artifacts.map Artifact.name =
      (([fA, fB].filter fun c =>
          (cgAB.calls c.fname).any fun e => e.callee == "__assert_fail").map
        fun c => mAB.moduleId ++ ".main." ++ c.fname ++ ".o") := by
  obtain ⟨M', arts, h1, h2⟩ := c7_direct_edge_one_artifact tdC envOK cgAB [fA, fB] mAB
    (by decide) (fun s => rfl) (fun m => rfl) rfl (by decide)
  rw [h1]
  simpa [RunResult.artifacts] using h2

/-- Witness for C8 at the struct-parameter candidate. -/
theorem c8_witness :
    (argsFrom 0 fS.params).length < fS.params.length ∧
    (writeMain tdC envOK mS fS).2 =
      .signatureAbort ((emitParams tdC 0 fS.params []).1 ++ aiInstrs tdC mS.globals) := by
  obtain ⟨h1, h2, h3, h4⟩ := c8_dropped_param_aborts tdC envOK mS fS
    ⟨some "s", .structTy true 12⟩ (by decide) (by decide)
  exact ⟨h1, h3⟩

/-- Witness for C9 on the consecutive syntheses of `A` then `B`. -/
theorem c9_witness :
    mA1.functions = mAB.functions ∧
    mainScaffold fB.fname ∈ artB9.functions ∧
    ∀ f ∈ artB9.functions, f.createdFor ≠ some fA.fname := by
  obtain ⟨h1, h2, h3, h4, h5, h6, h7⟩ :=
    c9_scaffold_erased_mutations_kept tdC envOK envOK mAB mA1 mB9 fA fB artA artB9
      (by decide) (by decide) rfl rfl
  exact ⟨h1, h2, h4⟩

/-- Witness for C10: `A`'s output open fails, the scaffolding stays, and
`B`'s artifact then contains `A`'s leftover `main` and `klee_make_symbolic`. -/
theorem c10_witness :
    writeMain tdC envNoOpenA mAB fA = (moduleAtVerify mAB fA, .ioError) ∧
    mainScaffold fA.fname ∈ artBafter.functions ∧
    kmsScaffold fA.fname ∈ artBafter.functions := by
  obtain ⟨h1, h2, h3, h4⟩ := c10_io_error_keeps_scaffolding tdC envNoOpenA mAB fA
    (by decide) rfl
  have h5 := h4 envNoOpenA fB mBafter artBafter rfl
  exact ⟨h1, h5.1, h5.2⟩

end Kleerer
